import Mathlib

/-!
Verification of the FlyCapture2 `BusManager` interface (src/include/BusManager.h)
against its natural-language specification.

The repository ships only the interface header: every operation of the class is
declared (with its documentation) but its body is not part of the sources.  The
definitions below are therefore shallow models built from the header's
documentation and the specification's contract for each operation; each such
definition carries a doc comment starting with `Modelled from the spec:` naming
the missing implementation it stands for.
-/

namespace FlyCapture2

/-- Error taxonomy of the core operations, from the spec's error-handling
design (spec section 7). -/
inductive FCError where
  | NotFound
  | OutOfRange
  | InvalidIdentifier
  | InvalidHandle
  | BufferTooSmall
  | NotSupported
  | Timeout
  | HardwareFault
deriving DecidableEq, Repr

/-- Transport kind of a device (the header's `InterfaceType` from
FlyCapture2Defs.h: 1394, USB2, USB3, GigE). -/
inductive InterfaceType where
  | ieee1394
  | usb2
  | usb3
  | gigE
deriving DecidableEq, Repr

/-- Modelled from the spec: a physically attached piece of hardware as the
transport backends report it — serial number (optional: not all transports
expose one), topological position in the bus graph (a path of port numbers),
whether it is a camera (as opposed to a hub or host controller), and its
transport.  Stands in for the raw device lists supplied by the driver
backends, which are outside the shipped sources. -/
structure PhysDevice where
  serial : Option Nat
  pos : List Nat
  isCamera : Bool
  iface : InterfaceType
deriving DecidableEq, Repr

/-- Modelled from the spec: one entry of the DeviceRecord table owned by the
Enumeration Engine — the opaque Identifier (`PGRGuid`, modelled as a `Nat`),
the optional serial number, the topological position, the camera flag and the
transport.  The enumeration index is the entry's position in the table. -/
structure DeviceRecord where
  guid : Nat
  serial : Option Nat
  pos : List Nat
  isCamera : Bool
  iface : InterfaceType
deriving DecidableEq, Repr

/-- Modelled from the spec: the Enumeration Engine's state as of the last
completed rescan — the DeviceRecord table plus the next unused Identifier
value (Identifiers are generated fresh, never reused). -/
structure EnumState where
  records : List DeviceRecord
  nextGuid : Nat
deriving DecidableEq, Repr

/-- Whether an existing record describes the same device at the same
topological position as a freshly enumerated physical device. -/
def matchesPhys (r : DeviceRecord) (d : PhysDevice) : Bool :=
  decide (r.pos = d.pos ∧ r.serial = d.serial)

/-- Look for the record of a previous enumeration pass describing this device
at an unchanged topological position. -/
def findOld (old : List DeviceRecord) (d : PhysDevice) : Option DeviceRecord :=
  old.find? (fun r => matchesPhys r d)

/-- The record written for a physical device given the Identifier chosen
for it. -/
def recordOf (d : PhysDevice) (g : Nat) : DeviceRecord :=
  ⟨g, d.serial, d.pos, d.isCamera, d.iface⟩

/-- Modelled from the spec: the core of `BusManager::RescanBus` — walk the
freshly enumerated device list; a device found at an unchanged topological
position with the same serial keeps its Identifier from the previous table,
every other device is assigned a fresh one. Returns the new table and the
next unused Identifier value. -/
def rescanAux (old : List DeviceRecord) :
    List PhysDevice → Nat → List DeviceRecord × Nat
  | [], fresh => ([], fresh)
  | d :: ds, fresh =>
    match findOld old d with
    | some r =>
      let rest := rescanAux old ds fresh
      (recordOf d r.guid :: rest.1, rest.2)
    | none =>
      let rest := rescanAux old ds (fresh + 1)
      (recordOf d fresh :: rest.1, rest.2)

/-- Modelled from the spec: `BusManager::RescanBus` — re-enumerates all
transport backends (the physical device list `phys`) and atomically replaces
the DeviceRecord table, preserving Identifiers of topologically unmoved
devices and assigning fresh ones to the rest.  Does not reset hardware. -/
def RescanBus (s : EnumState) (phys : List PhysDevice) : EnumState :=
  ⟨(rescanAux s.records phys s.nextGuid).1, (rescanAux s.records phys s.nextGuid).2⟩

/-- The camera entries of the DeviceRecord table, in enumeration order. -/
def camerasOf (s : EnumState) : List DeviceRecord :=
  s.records.filter (fun r => r.isCamera)

/-- Modelled from the spec: `BusManager::GetNumOfCameras` — the number of
cameras attached, as of the last completed rescan. -/
def GetNumOfCameras (s : EnumState) : Nat :=
  (camerasOf s).length

/-- Modelled from the spec: `BusManager::GetNumOfDevices` — the number of
devices, including hubs, host controllers and other hardware devices
(including cameras). -/
def GetNumOfDevices (s : EnumState) : Nat :=
  s.records.length

/-- Modelled from the spec: `BusManager::GetCameraFromIndex` — the `PGRGuid`
of the camera at the given zero-based index, `OutOfRange` past the end of
the camera list. -/
def GetCameraFromIndex (s : EnumState) (index : Nat) : Except FCError Nat :=
  match (camerasOf s)[index]? with
  | some r => .ok r.guid
  | none => .error .OutOfRange

/-- Modelled from the spec: `BusManager::GetCameraFromSerialNumber` — the
`PGRGuid` of the attached camera reporting the given serial number,
`NotFound` when no currently-attached camera reports it. -/
def GetCameraFromSerialNumber (s : EnumState) (serialNumber : Nat) :
    Except FCError Nat :=
  match (camerasOf s).find? (fun r => r.serial == some serialNumber) with
  | some r => .ok r.guid
  | none => .error .NotFound

/-- Modelled from the spec: `BusManager::GetDeviceFromIndex` — the `PGRGuid`
of the device (camera or not) at the given zero-based index. -/
def GetDeviceFromIndex (s : EnumState) (index : Nat) : Except FCError Nat :=
  match s.records[index]? with
  | some r => .ok r.guid
  | none => .error .OutOfRange

/-- Modelled from the spec: `BusManager::GetTopology` — a copy-out snapshot of
the topology graph, here the list of occupied topological positions paired
with the Identifier of the device occupying each. -/
def GetTopology (s : EnumState) : List (List Nat × Nat) :=
  s.records.map (fun r => (r.pos, r.guid))

/-- The empty enumeration state (no rescan has run, no Identifier issued). -/
def initState : EnumState := ⟨[], 0⟩

/-- Kinds of bus events a callback can register for (the header's
`BusCallbackType` from FlyCapture2Defs.h: device arrival, device removal,
bus reset). -/
inductive BusCallbackType where
  | arrival
  | removal
  | busReset
deriving DecidableEq, Repr

/-- Modelled from the spec: one callback registration of the Event
Notification Subsystem — the handle returned by `RegisterCallback`, the
event-kind filter, and the opaque user parameter passed back on delivery.
The registered entry point itself is identified by its handle. -/
structure CallbackReg where
  handle : Nat
  cbType : BusCallbackType
  param : Nat
deriving DecidableEq, Repr

/-- Modelled from the spec: the Event Notification Subsystem's state — the
registrations in registration order plus the next unused handle value. -/
structure EventState where
  regs : List CallbackReg
  nextHandle : Nat
deriving DecidableEq, Repr

/-- A bus event: its kind and the serial number (when known) of the affected
device. -/
structure BusEvent where
  kind : BusCallbackType
  serialNumber : Nat
deriving DecidableEq, Repr

/-- Modelled from the spec: `BusManager::RegisterCallback` — appends a new
registration with a freshly generated unique handle and returns the handle. -/
def RegisterCallback (st : EventState) (cbType : BusCallbackType)
    (param : Nat) : EventState × Nat :=
  (⟨st.regs ++ [⟨st.nextHandle, cbType, param⟩], st.nextHandle + 1⟩, st.nextHandle)

/-- The registrations whose event-kind filter matches an event, in
registration order. -/
def matchingRegs (regs : List CallbackReg) (e : BusEvent) : List CallbackReg :=
  regs.filter (fun r => r.cbType == e.kind)

/-- Modelled from the spec: synchronous dispatch of one event — the ordered
list of callback invocations it causes, one per matching registration in
registration order; each invocation carries the registration's handle, its
opaque user parameter and the event's serial number (the callback ABI
receives `(userParameter, serialNumber)`). -/
def deliverEvent (regs : List CallbackReg) (e : BusEvent) :
    List (Nat × Nat × Nat) :=
  (matchingRegs regs e).map (fun r => (r.handle, r.param, e.serialNumber))

/-- Modelled from the spec: `BusManager::UnregisterCallback` — removes the
registration with the given handle; fails with `InvalidHandle` when the
handle is unknown or was already unregistered. -/
def UnregisterCallback (st : EventState) (h : Nat) : Except FCError EventState :=
  if st.regs.any (fun r => r.handle == h) then
    .ok ⟨st.regs.filter (fun r => !(r.handle == h)), st.nextHandle⟩
  else
    .error .InvalidHandle

/-- Modelled from the spec: the whole bus manager — enumeration state plus
event-subsystem state. -/
structure SysState where
  enum : EnumState
  events : EventState
deriving DecidableEq, Repr

/-- The serial number (when known) of the device with the given Identifier,
as carried by bus events; 0 when unknown. -/
def serialFromGuid (s : EnumState) (g : Nat) : Nat :=
  match s.records.find? (fun r => r.guid == g) with
  | some r => r.serial.getD 0
  | none => 0

/-- Modelled from the spec: `BusManager::FireBusReset` — the reset is fired on
the bus segment of the addressed device but is observed as a global
(library-wide) topology-changing event: it triggers an implicit rescan
against the post-reset physical topology `postPhys`, and the bus-reset event
is then delivered to every registered callback whose filter matches, each
invocation carrying the affected device's serial number.  Per the spec the
rescan completes before the event is surfaced. -/
def FireBusReset (s : SysState) (pGuid : Nat) (postPhys : List PhysDevice) :
    SysState × List (Nat × Nat × Nat) :=
  (⟨RescanBus s.enum postPhys, s.events⟩,
   deliverEvent s.events.regs ⟨.busReset, serialFromGuid s.enum pGuid⟩)

/-- Modelled from the spec: a discoverable GigE camera's identity and network
configuration (the header's `CameraInfo` restricted to the GigE discovery
fields): serial number, immutable MAC address, IP address, subnet mask,
default gateway. -/
structure CameraInfo where
  serialNumber : Nat
  macAddress : Nat
  ipAddress : Nat
  subnetMask : Nat
  defaultGateway : Nat
deriving DecidableEq, Repr

/-- Outcome of a GigE discovery call: the error (when any), the value left in
the caller's `arraySize` in/out parameter, and the discovered records. -/
structure DiscoverOut where
  err : Option FCError
  arraySize : Nat
  gigECameras : List CameraInfo
deriving DecidableEq, Repr

/-- Modelled from the spec: the static `BusManager::DiscoverGigECameras` —
finds all GigE cameras reachable via broadcast discovery regardless of
subnet (`network` is what the broadcast reaches).  When the supplied buffer
capacity is smaller than needed it fails with `BufferTooSmall` and leaves
the required size in `arraySize`; otherwise it succeeds, returns all the
cameras and leaves the number discovered in `arraySize`. -/
def DiscoverGigECameras (network : List CameraInfo) (arraySize : Nat) :
    DiscoverOut :=
  if arraySize < network.length then
    ⟨some .BufferTooSmall, network.length, []⟩
  else
    ⟨none, network.length, network⟩

/-- Modelled from the spec: the network-level effect of the static
`BusManager::ForceIPAddressToCamera` — unicasts a configuration command to
the camera with the given immutable MAC address, setting its IP address,
subnet mask and default gateway; fails with `NotFound` when no such device
responds. -/
def forceIPNet (net : List CameraInfo) (mac ip mask gw : Nat) :
    List CameraInfo × Option FCError :=
  if net.any (fun c => c.macAddress == mac) then
    (net.map (fun c =>
      if c.macAddress == mac then ⟨c.serialNumber, c.macAddress, ip, mask, gw⟩
      else c), none)
  else
    (net, some .NotFound)

/-- Modelled from the spec: the network-level effect of the static
`BusManager::ForceAllIPAddressesAutomatically` — assigns each camera, in
ascending discovery order, a sequential address on the host adapter's
subnet, never reusing an address claimed earlier in the same pass. -/
def autoIPNet (net : List CameraInfo) (hostBase hostMask hostGw : Nat) :
    List CameraInfo :=
  net.enum.map (fun p =>
    ⟨p.2.serialNumber, p.2.macAddress, hostBase + p.1 + 1, hostMask, hostGw⟩)

/-- Modelled from the spec: the world visible to the static GigE operations —
one bus manager instance's state plus the GigE network segment. -/
structure World where
  enum : EnumState
  events : EventState
  network : List CameraInfo
deriving DecidableEq, Repr

/-- Modelled from the spec: `BusManager::ForceIPAddressToCamera` acting on the
world — static, so it only touches the network segment. -/
def ForceIPAddressToCamera (w : World) (mac ip mask gw : Nat) :
    World × Option FCError :=
  (⟨w.enum, w.events, (forceIPNet w.network mac ip mask gw).1⟩,
   (forceIPNet w.network mac ip mask gw).2)

/-- Modelled from the spec: the no-argument static
`BusManager::ForceAllIPAddressesAutomatically` acting on the world. -/
def ForceAllIPAddressesAutomatically (w : World) (hostBase hostMask hostGw : Nat) :
    World × Option FCError :=
  (⟨w.enum, w.events, autoIPNet w.network hostBase hostMask hostGw⟩, none)

/-- Modelled from the spec: the per-camera static
`BusManager::ForceAllIPAddressesAutomatically(serialNumber)` acting on the
world — reconfigures only the camera with the given serial number. -/
def ForceAllIPAddressesAutomaticallySerial (w : World)
    (hostBase hostMask hostGw serialNumber : Nat) : World × Option FCError :=
  (⟨w.enum, w.events,
    (autoIPNet w.network hostBase hostMask hostGw).zip w.network |>.map
      (fun p => if p.2.serialNumber == serialNumber then p.1 else p.2)⟩, none)

/-- Modelled from the spec: the static `BusManager::DiscoverGigECameras`
acting on the world — a pure probe of the network segment. -/
def DiscoverGigECamerasW (w : World) (arraySize : Nat) : World × DiscoverOut :=
  (w, DiscoverGigECameras w.network arraySize)

/-! Concrete fixtures for the spec's end-to-end scenarios. -/

/-- A camera with serial 1001 on port 0 of the first host controller. -/
def devA : PhysDevice := ⟨some 1001, [0, 0], true, .usb3⟩

/-- A camera with serial 1002 on port 1 of the first host controller. -/
def devB : PhysDevice := ⟨some 1002, [0, 1], true, .usb3⟩

/-- Enumeration state after a rescan seeing both cameras. -/
def stateTwo : EnumState := RescanBus initState [devA, devB]

/-- Enumeration state after camera 1002 is detached and a rescan runs. -/
def stateOne : EnumState := RescanBus stateTwo [devA]

/-- A two-camera GigE network segment. -/
def netTwo : List CameraInfo := [⟨2001, 11, 100, 255, 1⟩, ⟨2002, 12, 200, 255, 1⟩]

/-- Two registrations A (handle 1) then B (handle 2), both filtering on
device-arrival events. -/
def regsAB : List CallbackReg := [⟨1, .arrival, 10⟩, ⟨2, .arrival, 20⟩]

/-- One device-arrival event for serial 5. -/
def evArrival : BusEvent := ⟨.arrival, 5⟩

/-- A world with the two-camera enumeration state, registrations A and B, and
the two-camera GigE segment. -/
def worldA : World := ⟨stateTwo, ⟨regsAB, 3⟩, netTwo⟩

/-! Helper lemmas about `rescanAux`. -/

/-- Every record written by a rescan pass copies the serial, position, camera
flag and transport of the physical device it was written for. -/
theorem rescanAux_shape (old : List DeviceRecord) :
    ∀ (phys : List PhysDevice) (fresh : Nat),
      List.Forall₂ (fun d r => recordOf d r.guid = r) phys (rescanAux old phys fresh).1
  | [], _ => List.Forall₂.nil
  | d :: ds, fresh => by
    unfold rescanAux
    cases hf : findOld old d with
    | some r =>
      simp only [hf]
      exact List.Forall₂.cons rfl (rescanAux_shape old ds fresh)
    | none =>
      simp only [hf]
      exact List.Forall₂.cons rfl (rescanAux_shape old ds (fresh + 1))

/-- Two pointwise alignments of the same lists combine. -/
theorem forall2_conj {α β : Type} {P Q : α → β → Prop} :
    ∀ {l : List α} {m : List β}, List.Forall₂ P l m → List.Forall₂ Q l m →
      List.Forall₂ (fun a b => P a b ∧ Q a b) l m := by
  intro l m h1 h2
  induction h1 with
  | nil => exact List.Forall₂.nil
  | cons hp _ ih =>
    cases h2 with
    | cons hq htl => exact List.Forall₂.cons ⟨hp, hq⟩ (ih htl)

/-- `find?` returns the one element satisfying the test when that element is
unique. -/
theorem find?_of_unique {l : List DeviceRecord} {d : PhysDevice}
    {r : DeviceRecord} (hmem : r ∈ l) (hm : matchesPhys r d = true)
    (huniq : ∀ r2 ∈ l, matchesPhys r2 d = true → r2 = r) :
    findOld l d = some r := by
  induction l with
  | nil => cases hmem
  | cons a tl ih =>
    by_cases hpa : matchesPhys a d = true
    · have : a = r := huniq a (List.mem_cons_self a tl) hpa
      subst this
      exact List.find?_cons_of_pos _ hpa
    · have hr : r ∈ tl := by
        rcases List.mem_cons.mp hmem with h | h
        · exact absurd (h ▸ hm) hpa
        · exact h
      rw [findOld, List.find?_cons_of_neg _ (by simpa using hpa)]
      exact ih hr (fun r2 h2 hm2 => huniq r2 (List.mem_cons_of_mem a h2) hm2)

/-- When the physical positions are pairwise distinct, each device of a pass
finds exactly its own record in the table the pass produced. -/
theorem rescan_selfFind {phys : List PhysDevice} {new : List DeviceRecord}
    (hstruct : List.Forall₂ (fun d r => recordOf d r.guid = r) phys new)
    (hpos : (phys.map PhysDevice.pos).Nodup) :
    List.Forall₂ (fun d r => findOld new d = some r) phys new := by
  have hlen := hstruct.length_eq
  refine List.forall₂_of_length_eq_of_get hlen ?_
  intro i h1 h2
  have hdr := hstruct.get h1 h2
  apply find?_of_unique (List.get_mem _ _ _)
  · rw [← hdr]
    simp [matchesPhys, recordOf]
  · intro r2 hr2 hm2
    obtain ⟨⟨j, hj⟩, hget⟩ := List.mem_iff_get.mp hr2
    have hj1 : j < phys.length := hlen ▸ hj
    have hdr2 := hstruct.get hj1 hj
    have hpos2 : r2.pos = (phys.get ⟨j, hj1⟩).pos := by
      rw [hget] at hdr2
      rw [← hdr2]
      rfl
    have hposEq : (phys.get ⟨j, hj1⟩).pos = (phys.get ⟨i, h1⟩).pos := by
      have hm2p : r2.pos = (phys.get ⟨i, h1⟩).pos := by
        have := of_decide_eq_true hm2
        exact this.1
      rw [← hpos2, hm2p]
    have hij : j = i := by
      have hmap : ∀ (k : Nat) (hk : k < phys.length),
          (phys.map PhysDevice.pos).get ⟨k, by simpa using hk⟩ =
            (phys.get ⟨k, hk⟩).pos := by
        intro k hk
        simp [List.getElem_map]
      have := hpos.get_inj_iff (i := ⟨j, by simpa using hj1⟩)
        (j := ⟨i, by simpa using h1⟩)
      have heq : (phys.map PhysDevice.pos).get ⟨j, by simpa using hj1⟩ =
          (phys.map PhysDevice.pos).get ⟨i, by simpa using h1⟩ := by
        rw [hmap j hj1, hmap i h1, hposEq]
      simpa using this.mp heq
    subst hij
    rw [← hget]

/-- A table in which every device finds exactly its own record is a fixpoint
of the rescan pass: the pass returns it unchanged and issues no fresh
Identifier. -/
theorem rescanAux_fixed (M : List DeviceRecord) {phys : List PhysDevice}
    {new : List DeviceRecord} (fresh : Nat)
    (h : List.Forall₂ (fun d r => findOld M d = some r ∧ recordOf d r.guid = r)
      phys new) :
    rescanAux M phys fresh = (new, fresh) := by
  induction h with
  | nil => rfl
  | cons hp _ ih =>
    obtain ⟨hfind, hrec⟩ := hp
    unfold rescanAux
    rw [hfind]
    simp only [ih, hrec]

/-- Identifier bookkeeping of a rescan pass: a device whose topological
position is unchanged keeps the Identifier of its old record, any other
device receives an Identifier at least `bound` (no smaller than the
counter the pass started from). -/
theorem rescanAux_guid (old : List DeviceRecord) :
    ∀ (phys : List PhysDevice) (fresh bound : Nat), bound ≤ fresh →
      List.Forall₂ (fun d r2 =>
        (∀ r, findOld old d = some r → r2.guid = r.guid) ∧
        (findOld old d = none → bound ≤ r2.guid)) phys (rescanAux old phys fresh).1
  | [], _, _ => fun _ => List.Forall₂.nil
  | d :: ds, fresh, bound => by
    intro hb
    unfold rescanAux
    cases hf : findOld old d with
    | some r =>
      simp only [hf]
      refine List.Forall₂.cons ⟨?_, ?_⟩ (rescanAux_guid old ds fresh bound hb)
      · intro r0 h0
        rw [hf] at h0
        cases h0
        rfl
      · intro hn
        rw [hf] at hn
        cases hn
    | none =>
      simp only [hf]
      refine List.Forall₂.cons ⟨?_, ?_⟩
        (rescanAux_guid old ds (fresh + 1) bound (Nat.le_succ_of_le hb))
      · intro r0 h0
        rw [hf] at h0
        cases h0
      · intro _
        exact hb

/-- Aligned records preserve the camera flag, so camera counts agree with the
physical pass. -/
theorem forall2_camera_count {phys : List PhysDevice} {recs : List DeviceRecord}
    (h : List.Forall₂ (fun d r => recordOf d r.guid = r) phys recs) :
    (recs.filter (fun r => r.isCamera)).length =
      (phys.filter (fun d => d.isCamera)).length := by
  induction h with
  | nil => rfl
  | @cons d r ds rs hp htl ih =>
    have hcam : r.isCamera = d.isCamera := by
      rw [← hp]
      rfl
    by_cases hc : d.isCamera = true
    · simp [List.filter_cons, hcam, hc, ih]
    · simp [List.filter_cons, hcam, hc, ih]

/-- C1: for every device that remains attached and topologically unmoved
across two completed rescans, resolving it by serial number returns the same
Identifier both times; two consecutive rescans with no physical topology
change yield identical DeviceRecord sets and identical Identifiers; and a
rescan preserves exactly the Identifiers of devices whose topological
position (and serial) is unchanged while assigning fresh ones — never a
previously issued Identifier — to the rest. -/
theorem rescan_stability (s : EnumState) (phys : List PhysDevice)
    (hpos : (phys.map PhysDevice.pos).Nodup)
    (hwf : ∀ r ∈ s.records, r.guid < s.nextGuid) :
    RescanBus (RescanBus s phys) phys = RescanBus s phys ∧
    (∀ sn, GetCameraFromSerialNumber (RescanBus (RescanBus s phys) phys) sn =
      GetCameraFromSerialNumber (RescanBus s phys) sn) ∧
    (∀ p ∈ phys.zip (RescanBus s phys).records,
      (∀ r, findOld s.records p.1 = some r → p.2.guid = r.guid) ∧
      (findOld s.records p.1 = none →
        p.2.guid ∉ s.records.map DeviceRecord.guid)) := by
  have hshape := rescanAux_shape s.records phys s.nextGuid
  have hfix := rescanAux_fixed ((rescanAux s.records phys s.nextGuid).1)
    ((rescanAux s.records phys s.nextGuid).2)
    (forall2_conj (rescan_selfFind hshape hpos) hshape)
  have h1 : RescanBus (RescanBus s phys) phys = RescanBus s phys := by
    simp only [RescanBus]
    rw [hfix]
  refine ⟨h1, fun sn => by rw [h1], ?_⟩
  have hguid := rescanAux_guid s.records phys s.nextGuid s.nextGuid le_rfl
  intro p hp
  obtain ⟨a, b⟩ := p
  have hab := List.forall₂_zip hguid hp
  dsimp only at hab ⊢
  refine ⟨hab.1, fun hn => ?_⟩
  intro hmem
  obtain ⟨r, hr, hrg⟩ := List.mem_map.mp hmem
  have h2 := hwf r hr
  have h3 := hab.2 hn
  omega

/-- C1 witness: the stability theorem at the concrete two-camera topology. -/
theorem rescan_stability_witness :
    (([devA, devB].map PhysDevice.pos).Nodup) ∧
    RescanBus (RescanBus initState [devA, devB]) [devA, devB] =
      RescanBus initState [devA, devB] :=
  ⟨by decide, (rescan_stability initState [devA, devB] (by decide) (by decide)).1⟩

/-- C2: resolving a camera Identifier by index fails with `OutOfRange` exactly
when the index is at least the camera count of the last completed rescan, and
every index below the count resolves to the Identifier of the camera at that
index. -/
theorem getCameraFromIndex_range (s : EnumState) (index : Nat) :
    (GetCameraFromIndex s index = .error .OutOfRange ↔
      GetNumOfCameras s ≤ index) ∧
    (index < GetNumOfCameras s →
      ∃ r, (camerasOf s)[index]? = some r ∧
        GetCameraFromIndex s index = .ok r.guid) := by
  constructor
  · unfold GetCameraFromIndex GetNumOfCameras
    cases h : (camerasOf s)[index]? with
    | none =>
      simp only [h]
      have hlen := List.getElem?_eq_none_iff.mp h
      exact ⟨fun _ => hlen, fun _ => trivial⟩
    | some r =>
      simp only [h]
      have hlt : index < (camerasOf s).length := by
        by_contra hc
        push_neg at hc
        rw [List.getElem?_eq_none hc] at h
        cases h
      constructor
      · intro he
        cases he
      · intro hle
        exact absurd hle (Nat.not_le.mpr hlt)
  · intro hlt
    have hr := List.getElem?_eq_getElem (l := camerasOf s) (n := index) hlt
    refine ⟨_, hr, ?_⟩
    unfold GetCameraFromIndex
    rw [hr]

/-- C2 witness: at the concrete two-camera state, index 5 is out of range and
index 1 resolves. -/
theorem getCameraFromIndex_range_witness :
    (GetNumOfCameras stateTwo ≤ 5 ∧
      GetCameraFromIndex stateTwo 5 = .error .OutOfRange) ∧
    (∃ r, (camerasOf stateTwo)[1]? = some r ∧
      GetCameraFromIndex stateTwo 1 = .ok r.guid) :=
  ⟨⟨by decide, (getCameraFromIndex_range stateTwo 5).1.mpr (by decide)⟩,
   (getCameraFromIndex_range stateTwo 1).2 (by decide)⟩

/-- C3: resolving by serial number fails with `NotFound` exactly when no
currently-attached camera reports that serial; with the two-camera fixture
the count is 2 and each serial resolves, and after device 1002 is detached
and a rescan completes the count drops to 1 and serial 1002 fails with
`NotFound`. -/
theorem getCameraFromSerialNumber_notFound (s : EnumState) (sn : Nat) :
    (GetCameraFromSerialNumber s sn = .error .NotFound ↔
      ∀ r ∈ camerasOf s, r.serial ≠ some sn) ∧
    GetNumOfCameras stateTwo = 2 ∧
    GetCameraFromSerialNumber stateTwo 1001 = .ok 0 ∧
    GetCameraFromSerialNumber stateTwo 1002 = .ok 1 ∧
    GetNumOfCameras stateOne = 1 ∧
    GetCameraFromSerialNumber stateOne 1002 = .error .NotFound := by
  refine ⟨?_, by decide, by rfl, by rfl, by decide, by rfl⟩
  unfold GetCameraFromSerialNumber
  cases h : (camerasOf s).find? (fun r => r.serial == some sn) with
  | none =>
    simp only [h]
    have hall := List.find?_eq_none.mp h
    constructor
    · intro _ r hr
      simpa using hall r hr
    · intro _
      trivial
  | some r =>
    simp only [h]
    have hmem := List.mem_of_find?_eq_some h
    have hpr := List.find?_some h
    constructor
    · intro he
      cases he
    · intro hall
      exact absurd (by simpa using hpr) (hall r hmem)

/-- C3 witness: after the detach rescan, serial 1002 is reported by no
attached camera and resolving it fails with `NotFound`. -/
theorem getCameraFromSerialNumber_notFound_witness :
    (∀ r ∈ camerasOf stateOne, r.serial ≠ some 1002) ∧
    GetCameraFromSerialNumber stateOne 1002 = .error .NotFound :=
  ⟨by decide, (getCameraFromSerialNumber_notFound stateOne 1002).1.mpr (by decide)⟩

/-- C9: the device count includes hubs, host controllers and every camera, so
it is always at least the camera count, and every camera record is a device
record. -/
theorem numOfDevices_ge_numOfCameras (s : EnumState) :
    GetNumOfCameras s ≤ GetNumOfDevices s ∧
    ∀ r ∈ camerasOf s, r ∈ s.records := by
  constructor
  · unfold GetNumOfCameras GetNumOfDevices camerasOf
    exact List.length_filter_le _ _
  · intro r hr
    exact List.mem_of_mem_filter hr

/-- C9 witness: the counts at the concrete two-camera state. -/
theorem numOfDevices_ge_numOfCameras_witness :
    GetNumOfCameras stateTwo ≤ GetNumOfDevices stateTwo :=
  (numOfDevices_ge_numOfCameras stateTwo).1

/-- C4: a GigE discovery call with a buffer capacity smaller than the number
of discoverable cameras fails with `BufferTooSmall` and writes the required
size into the capacity parameter; re-invoking with that size, with no
topology change, succeeds and returns exactly that many records. -/
theorem discoverGigE_roundTrip (network : List CameraInfo) (cap : Nat)
    (hcap : cap < network.length) :
    (DiscoverGigECameras network cap).err = some .BufferTooSmall ∧
    (DiscoverGigECameras network cap).arraySize = network.length ∧
    (DiscoverGigECameras network
      (DiscoverGigECameras network cap).arraySize).err = none ∧
    (DiscoverGigECameras network
      (DiscoverGigECameras network cap).arraySize).gigECameras = network ∧
    (DiscoverGigECameras network
      (DiscoverGigECameras network cap).arraySize).gigECameras.length =
      (DiscoverGigECameras network cap).arraySize := by
  have h1 : DiscoverGigECameras network cap =
      ⟨some .BufferTooSmall, network.length, []⟩ := by
    unfold DiscoverGigECameras
    rw [if_pos hcap]
  have h2 : DiscoverGigECameras network network.length =
      ⟨none, network.length, network⟩ := by
    unfold DiscoverGigECameras
    rw [if_neg (by omega)]
  simp [h1, h2]

/-- C4 witness: the round trip at the concrete two-camera segment with
capacity 0. -/
theorem discoverGigE_roundTrip_witness :
    0 < netTwo.length ∧
    (DiscoverGigECameras netTwo 0).err = some .BufferTooSmall ∧
    (DiscoverGigECameras netTwo
      (DiscoverGigECameras netTwo 0).arraySize).gigECameras.length =
      (DiscoverGigECameras netTwo 0).arraySize :=
  ⟨by decide, (discoverGigE_roundTrip netTwo 0 (by decide)).1,
   (discoverGigE_roundTrip netTwo 0 (by decide)).2.2.2.2⟩

/-- The handles an event is delivered to are the handles of the matching
registrations, in registration order. -/
theorem deliver_handles (regs : List CallbackReg) (e : BusEvent) :
    (deliverEvent regs e).map (fun p => p.1) =
      (matchingRegs regs e).map CallbackReg.handle := by
  simp only [deliverEvent, List.map_map]
  rfl

/-- C5: an event is delivered to each registered callback whose event-kind
filter matches, exactly once each, in registration order (the delivered
handle sequence is a subsequence of the registration order), never to a
non-matching callback, and every invocation carries the event's serial
number. -/
theorem deliverEvent_order (regs : List CallbackReg) (e : BusEvent)
    (hnd : (regs.map CallbackReg.handle).Nodup) :
    ((deliverEvent regs e).map (fun p => p.1)).Sublist
      (regs.map CallbackReg.handle) ∧
    (∀ r ∈ regs, r.cbType = e.kind →
      ((deliverEvent regs e).map (fun p => p.1)).count r.handle = 1) ∧
    (∀ r ∈ regs, r.cbType ≠ e.kind →
      r.handle ∉ (deliverEvent regs e).map (fun p => p.1)) ∧
    (∀ p ∈ deliverEvent regs e, p.2.2 = e.serialNumber) := by
  have hh := deliver_handles regs e
  refine ⟨?_, ?_, ?_, ?_⟩
  · rw [hh]
    exact (List.filter_sublist regs).map CallbackReg.handle
  · intro r hr hk
    rw [hh]
    have hmemf : r ∈ matchingRegs regs e := by
      unfold matchingRegs
      exact List.mem_filter.mpr ⟨hr, by simp [hk]⟩
    have hle : ((matchingRegs regs e).map CallbackReg.handle).count r.handle ≤
        (regs.map CallbackReg.handle).count r.handle :=
      ((List.filter_sublist regs).map CallbackReg.handle).count_le _
    have hone := List.count_eq_one_of_mem hnd (List.mem_map_of_mem _ hr)
    have hpos : 0 < ((matchingRegs regs e).map CallbackReg.handle).count r.handle :=
      List.count_pos_iff.mpr (List.mem_map_of_mem _ hmemf)
    omega
  · intro r hr hk hmem
    rw [hh] at hmem
    obtain ⟨r2, hr2, heq⟩ := List.mem_map.mp hmem
    have hr2m := List.mem_of_mem_filter hr2
    have hk2 : r2.cbType = e.kind := by
      simpa using List.of_mem_filter hr2
    have hr2r : r2 = r := List.inj_on_of_nodup_map hnd hr2m hr heq
    exact hk (hr2r ▸ hk2)
  · intro p hp
    obtain ⟨r2, _, heq⟩ := List.mem_map.mp hp
    rw [← heq]

/-- C5 witness: registering A (handle 1) then B (handle 2) and triggering one
arrival event delivers to A before B, exactly once each. -/
theorem deliverEvent_order_witness :
    (regsAB.map CallbackReg.handle).Nodup ∧
    ((deliverEvent regsAB evArrival).map (fun p => p.1)).count 1 = 1 ∧
    ((deliverEvent regsAB evArrival).map (fun p => p.1)).count 2 = 1 ∧
    (deliverEvent regsAB evArrival).map (fun p => p.1) = [1, 2] :=
  ⟨by decide,
   (deliverEvent_order regsAB evArrival (by decide)).2.1 ⟨1, .arrival, 10⟩
     (by decide) rfl,
   (deliverEvent_order regsAB evArrival (by decide)).2.1 ⟨2, .arrival, 20⟩
     (by decide) rfl,
   by decide⟩

/-- C6: unregistering fails with `InvalidHandle` exactly when the handle is
not among the current registrations (unknown or already unregistered), and
after a successful unregister no event is ever delivered to that handle. -/
theorem unregisterCallback_finality (st : EventState) (h : Nat) :
    (UnregisterCallback st h = .error .InvalidHandle ↔
      h ∉ st.regs.map CallbackReg.handle) ∧
    (∀ st2, UnregisterCallback st h = .ok st2 →
      ∀ e p, p ∈ deliverEvent st2.regs e → p.1 ≠ h) := by
  constructor
  · unfold UnregisterCallback
    by_cases hc : st.regs.any (fun r => r.handle == h) = true
    · rw [if_pos hc]
      constructor
      · intro he
        cases he
      · intro hnot
        obtain ⟨r, hr, hrh⟩ := List.any_eq_true.mp hc
        have hmem : h ∈ st.regs.map CallbackReg.handle := by
          have hrh2 : r.handle = h := by simpa using hrh
          exact hrh2 ▸ List.mem_map_of_mem CallbackReg.handle hr
        exact (hnot hmem).elim
    · rw [if_neg hc]
      constructor
      · intro _ hmem
        obtain ⟨r, hr, hrh⟩ := List.mem_map.mp hmem
        exact hc (List.any_eq_true.mpr ⟨r, hr, by simpa using hrh⟩)
      · intro _
        rfl
  · intro st2 hok e p hp
    unfold UnregisterCallback at hok
    by_cases hc : st.regs.any (fun r => r.handle == h) = true
    · rw [if_pos hc] at hok
      cases hok
      obtain ⟨r, hr, heq⟩ := List.mem_map.mp hp
      have hrr : r ∈ st.regs.filter (fun r => !(r.handle == h)) :=
        List.mem_of_mem_filter hr
      have hneq : r.handle ≠ h := by
        simpa using List.of_mem_filter hrr
      rw [← heq]
      exact hneq
    · rw [if_neg hc] at hok
      cases hok

/-- C6 witness: an unknown handle is rejected, and after unregistering
handle 1 an arrival event delivers nothing to it. -/
theorem unregisterCallback_finality_witness :
    ((1 : Nat) ∉ (⟨[⟨2, .arrival, 20⟩], 3⟩ : EventState).regs.map
      CallbackReg.handle) ∧
    UnregisterCallback ⟨[⟨2, .arrival, 20⟩], 3⟩ 1 = .error .InvalidHandle ∧
    ((2 : Nat), (20 : Nat), (5 : Nat)).1 ≠ 1 :=
  ⟨by decide,
   (unregisterCallback_finality ⟨[⟨2, .arrival, 20⟩], 3⟩ 1).1.mpr (by decide),
   (unregisterCallback_finality ⟨regsAB, 3⟩ 1).2 ⟨[⟨2, .arrival, 20⟩], 3⟩
     (by rfl) evArrival (2, 20, 5) (by decide)⟩

/-- C7: firing a bus reset on the segment of one device is observed
library-wide: it triggers an implicit rescan, so enumeration afterwards
reflects the post-reset topology (device and camera counts match the
post-reset physical list), and the bus-reset event is delivered to every
callback registered for bus resets, carrying the device's serial number. -/
theorem fireBusReset_rescan (s : SysState) (pGuid : Nat)
    (postPhys : List PhysDevice) :
    (FireBusReset s pGuid postPhys).1.enum = RescanBus s.enum postPhys ∧
    (FireBusReset s pGuid postPhys).1.events = s.events ∧
    GetNumOfDevices (FireBusReset s pGuid postPhys).1.enum = postPhys.length ∧
    GetNumOfCameras (FireBusReset s pGuid postPhys).1.enum =
      (postPhys.filter (fun d => d.isCamera)).length ∧
    (FireBusReset s pGuid postPhys).2 =
      deliverEvent s.events.regs ⟨.busReset, serialFromGuid s.enum pGuid⟩ ∧
    (∀ r ∈ s.events.regs, r.cbType = BusCallbackType.busReset →
      (r.handle, r.param, serialFromGuid s.enum pGuid) ∈
        (FireBusReset s pGuid postPhys).2) := by
  have hshape := rescanAux_shape s.enum.records postPhys s.enum.nextGuid
  refine ⟨rfl, rfl, ?_, ?_, rfl, ?_⟩
  · unfold GetNumOfDevices
    simpa [FireBusReset, RescanBus] using hshape.length_eq.symm
  · unfold GetNumOfCameras camerasOf
    simpa [FireBusReset, RescanBus] using forall2_camera_count hshape
  · intro r hr hk
    show _ ∈ deliverEvent s.events.regs _
    unfold deliverEvent
    apply List.mem_map_of_mem
    unfold matchingRegs
    exact List.mem_filter.mpr ⟨hr, by simp [hk]⟩

/-- C7 witness: firing a reset on the two-camera state with one camera left
after the reset rescans to the one-camera topology and delivers the reset
event to the registered bus-reset callback. -/
theorem fireBusReset_rescan_witness :
    (FireBusReset ⟨stateTwo, ⟨[⟨1, .busReset, 10⟩], 2⟩⟩ 0 [devA]).1.enum =
      RescanBus stateTwo [devA] ∧
    ((1 : Nat), (10 : Nat), serialFromGuid stateTwo 0) ∈
      (FireBusReset ⟨stateTwo, ⟨[⟨1, .busReset, 10⟩], 2⟩⟩ 0 [devA]).2 :=
  ⟨(fireBusReset_rescan ⟨stateTwo, ⟨[⟨1, .busReset, 10⟩], 2⟩⟩ 0 [devA]).1,
   (fireBusReset_rescan ⟨stateTwo, ⟨[⟨1, .busReset, 10⟩], 2⟩⟩ 0 [devA]).2.2.2.2.2
     ⟨1, .busReset, 10⟩ (by decide) rfl⟩

/-- C10: the GigE network-configuration operations are static — their
network-level effect is a function of the network segment alone — and
invoking any of them leaves the enumeration state of every bus manager
instance unchanged: same records, same camera count, same index resolution,
same topology snapshot. -/
theorem gigEStatic_frame (w : World)
    (mac ip mask gw hostBase hostMask hostGw sn cap : Nat) :
    (ForceIPAddressToCamera w mac ip mask gw).1.enum = w.enum ∧
    (ForceIPAddressToCamera w mac ip mask gw).1.events = w.events ∧
    (ForceAllIPAddressesAutomatically w hostBase hostMask hostGw).1.enum =
      w.enum ∧
    (ForceAllIPAddressesAutomaticallySerial w hostBase hostMask hostGw sn).1.enum =
      w.enum ∧
    (DiscoverGigECamerasW w cap).1 = w ∧
    GetNumOfCameras (ForceIPAddressToCamera w mac ip mask gw).1.enum =
      GetNumOfCameras w.enum ∧
    (∀ i, GetCameraFromIndex (ForceIPAddressToCamera w mac ip mask gw).1.enum i =
      GetCameraFromIndex w.enum i) ∧
    GetTopology (ForceIPAddressToCamera w mac ip mask gw).1.enum =
      GetTopology w.enum ∧
    (DiscoverGigECamerasW w cap).2 = DiscoverGigECameras w.network cap ∧
    (∀ w2 : World, w2.network = w.network →
      (ForceIPAddressToCamera w2 mac ip mask gw).1.network =
        (ForceIPAddressToCamera w mac ip mask gw).1.network) := by
  refine ⟨rfl, rfl, rfl, rfl, rfl, rfl, fun i => rfl, rfl, rfl,
    fun w2 h2 => ?_⟩
  simp [ForceIPAddressToCamera, h2]

/-- C10 witness: forcing an IP on the concrete world leaves its enumeration
state untouched. -/
theorem gigEStatic_frame_witness :
    (ForceIPAddressToCamera worldA 11 150 255 1).1.enum = worldA.enum :=
  (gigEStatic_frame worldA 11 150 255 1 0 0 0 0 0).1

end FlyCapture2
